import Mathlib

/-!
# GNEP — verification of the matching service against its code

Shallow embedding of the GNEP repository (frontend API client, cadastral
database schema, and the matching pipeline), with theorems settling the
frozen specification claims.
-/

namespace Gnep

/-!
## JSON values and the HTTP client, from src/lib/api-client.ts

The client methods wrap `fetch`; each receives an HTTP response carrying an
`ok` flag and a parsed JSON body.  `findProbableParcels`, `checkPermit` and
`getParcelDetails` throw on a non-ok response with the message
`error.detail || '<default>'` (JavaScript `||` keeps the left operand when
it is truthy); `healthCheck` returns the parsed body unconditionally.
-/

/-- A JSON value, as produced by `response.json()`. -/
inductive Json where
  | null
  | boolean (b : Bool)
  | number (q : ℚ)
  | str (s : String)
  | arr (elems : List Json)
  | obj (fields : List (String × Json))

/-- Field lookup in a JSON object body (first binding wins). -/
def lookupField : List (String × Json) → String → Option Json
  | [], _ => none
  | (k, v) :: rest, key => if k = key then some v else lookupField rest key

/-- Property access `body.detail`: a field of an object, `undefined` otherwise. -/
def Json.get? : Json → String → Option Json
  | .obj fields, key => lookupField fields key
  | _, _ => none

/-- JavaScript truthiness of a JSON value. -/
def Json.truthy : Json → Bool
  | .null => false
  | .boolean b => b
  | .number q => decide (q ≠ 0)
  | .str s => decide (s ≠ "")
  | .arr _ => true
  | .obj _ => true

/-- JavaScript `a || b` on a possibly-undefined value: the left operand when
present and truthy, otherwise the default. -/
def jsOr (v : Option Json) (dflt : Json) : Json :=
  match v with
  | some j => if j.truthy then j else dflt
  | none => dflt

/-- An HTTP response as seen by the client: the `ok` flag and the parsed body. -/
structure HttpResponse where
  ok : Bool
  body : Json

/-- `APIClient.findProbableParcels` (src/lib/api-client.ts lines 50-65): on a
non-ok response it throws `new Error(error.detail || 'Failed to find probable
parcels')`; otherwise it returns the parsed body. -/
def findProbableParcels (r : HttpResponse) : Except Json Json :=
  if r.ok then Except.ok r.body
  else Except.error (jsOr (r.body.get? "detail") (Json.str "Failed to find probable parcels"))

/-- `APIClient.checkPermit` (src/lib/api-client.ts lines 70-85). -/
def checkPermit (r : HttpResponse) : Except Json Json :=
  if r.ok then Except.ok r.body
  else Except.error (jsOr (r.body.get? "detail") (Json.str "Failed to check permit"))

/-- `APIClient.getParcelDetails` (src/lib/api-client.ts lines 90-99). -/
def getParcelDetails (r : HttpResponse) : Except Json Json :=
  if r.ok then Except.ok r.body
  else Except.error (jsOr (r.body.get? "detail") (Json.str "Failed to get parcel details"))

/-- `APIClient.healthCheck` (src/lib/api-client.ts lines 104-107): returns
`response.json()` without inspecting `response.ok`. -/
def healthCheck (r : HttpResponse) : Except Json Json :=
  Except.ok r.body

/-!
## The TypeScript input type and the search form

`ListingData` (src/lib/api-client.ts lines 6-13) declares `settlement` and
`parcel_area_m2` as non-optional fields and the remaining four with the `?`
optional marker.  The search form (app page, Home component) renders the
Settlement and Parcel Area inputs with the HTML `required` attribute, so the
form submits only when both are non-empty.
-/

/-- A candidate input object: which of the six `ListingData` fields it carries. -/
structure ListingDataFields where
  settlement : Option String
  parcel_area_m2 : Option ℚ
  construction_year : Option ℚ
  net_floor_area_m2 : Option ℚ
  property_type : Option String
  street_name : Option String

/-- Structural conformance to the `ListingData` interface: the two
non-optional fields must be present; `construction_year`,
`net_floor_area_m2`, `property_type` and `street_name` may be absent. -/
def conformsToListingData (j : ListingDataFields) : Bool :=
  j.settlement.isSome && j.parcel_area_m2.isSome

/-- HTML validation of the Home search form: both `required` inputs
(Settlement, Parcel Area) must be non-empty for submission to proceed. -/
def formSubmittable (settlementField areaField : String) : Bool :=
  (settlementField != "") && (areaField != "")

/-!
## Store model, from src/backend/database/schema.sql and the valuation schema

Tables: `parcele` (UNIQUE (parcela_stevilka, ko_sifra), `geom
GEOMETRY(POLYGON, 3794)`), `stavbe` (`parcela_id NOT NULL REFERENCES
parcele(id) ON DELETE CASCADE`), `lastniki` (`parcela_id NOT NULL REFERENCES
parcele(id) ON DELETE CASCADE`), `valuation_zones` (`geom GEOMETRY(POLYGON,
3794)`).  SQL statements against the schema are modelled as guarded
operations: an operation the constraints reject returns `none`.
-/

/-- A PostGIS geometry value: its SRID tag and polygon vertex data.  The
column type `GEOMETRY(POLYGON, 3794)` makes PostGIS reject any value whose
SRID is not 3794. -/
structure GeomValue where
  srid : Nat
  ring : List (ℚ × ℚ)
deriving DecidableEq, Repr

/-- A row of `parcele`. -/
structure ParcelRow where
  id : Nat
  parcela_stevilka : String
  ko_sifra : String
  ko_ime : String
  povrsina : ℚ
  geom : Option GeomValue
deriving DecidableEq, Repr

/-- A row of `stavbe`. -/
structure StavbaRow where
  id : Nat
  parcela_id : Nat
  stavba_stevilka : Option String
  leto_izgradnje : Option Int
  neto_tloris : Option ℚ
  stevilo_etaz : Option Int
  tip : Option String
  naslov_ulica : Option String
  naslov_hisna_st : Option String
  naslov_naselje : Option String
  naslov_posta : Option String
  naslov_postna_st : Option String
deriving DecidableEq, Repr

/-- A row of `lastniki`. -/
structure LastnikRow where
  id : Nat
  parcela_id : Nat
  ime : Option String
  vrsta : Option String
  delez : Option String
  pravica : Option String
deriving DecidableEq, Repr

/-- A row of `valuation_zones`. -/
structure ZoneRow where
  id : Nat
  zone_code : String
  zone_name : Option String
  base_value : Option ℚ
  adjustment_factor : Option ℚ
  zone_category : Option String
  geom : Option GeomValue
deriving DecidableEq, Repr

/-- The store state: contents of the four tables the claims are about. -/
structure Database where
  parcele : List ParcelRow
  stavbe : List StavbaRow
  lastniki : List LastnikRow
  valuation_zones : List ZoneRow
deriving DecidableEq, Repr

/-- The SRID check of a `GEOMETRY(POLYGON, 3794)` column (NULL allowed). -/
def sridOk (g : Option GeomValue) : Bool :=
  match g with
  | none => true
  | some geo => geo.srid == 3794

/-- Violation of `CONSTRAINT unique_parcela UNIQUE (parcela_stevilka, ko_sifra)`. -/
def pairClash (p q : ParcelRow) : Bool :=
  p.parcela_stevilka == q.parcela_stevilka && p.ko_sifra == q.ko_sifra

/-- An SQL statement against the store.  Updates carry the full new row and
are keyed by its `id` (primary keys are assigned by SERIAL and not changed). -/
inductive DbOp where
  | insertParcel (r : ParcelRow)
  | updateParcel (r : ParcelRow)
  | deleteParcel (i : Nat)
  | insertStavba (s : StavbaRow)
  | updateStavba (s : StavbaRow)
  | deleteStavba (i : Nat)
  | insertLastnik (o : LastnikRow)
  | updateLastnik (o : LastnikRow)
  | deleteLastnik (i : Nat)
  | insertZone (z : ZoneRow)
  | updateZone (z : ZoneRow)
  | deleteZone (i : Nat)
deriving Repr

/-- Executing one statement: `none` when a constraint (primary-key
freshness, `unique_parcela`, the NOT NULL foreign keys, the geometry SRID)
rejects it.  `deleteParcel` cascades to `stavbe` and `lastniki` per the
`ON DELETE CASCADE` clauses. -/
def applyOp (db : Database) (op : DbOp) : Option Database :=
  match op with
  | .insertParcel r =>
      if db.parcele.any (fun p => p.id == r.id) then none
      else if db.parcele.any (fun p => pairClash p r) then none
      else if sridOk r.geom then some { db with parcele := r :: db.parcele }
      else none
  | .updateParcel r =>
      if db.parcele.any (fun p => p.id != r.id && pairClash p r) then none
      else if sridOk r.geom then
        some { db with parcele := db.parcele.map (fun p => if p.id == r.id then r else p) }
      else none
  | .deleteParcel i =>
      some { db with
        parcele := db.parcele.filter (fun p => p.id != i),
        stavbe := db.stavbe.filter (fun s => s.parcela_id != i),
        lastniki := db.lastniki.filter (fun o => o.parcela_id != i) }
  | .insertStavba s =>
      if db.stavbe.any (fun t => t.id == s.id) then none
      else if db.parcele.any (fun p => p.id == s.parcela_id) then
        some { db with stavbe := s :: db.stavbe }
      else none
  | .updateStavba s =>
      if db.parcele.any (fun p => p.id == s.parcela_id) then
        some { db with stavbe := db.stavbe.map (fun t => if t.id == s.id then s else t) }
      else none
  | .deleteStavba i =>
      some { db with stavbe := db.stavbe.filter (fun s => s.id != i) }
  | .insertLastnik o =>
      if db.lastniki.any (fun t => t.id == o.id) then none
      else if db.parcele.any (fun p => p.id == o.parcela_id) then
        some { db with lastniki := o :: db.lastniki }
      else none
  | .updateLastnik o =>
      if db.parcele.any (fun p => p.id == o.parcela_id) then
        some { db with lastniki := db.lastniki.map (fun t => if t.id == o.id then o else t) }
      else none
  | .deleteLastnik i =>
      some { db with lastniki := db.lastniki.filter (fun o => o.id != i) }
  | .insertZone z =>
      if db.valuation_zones.any (fun t => t.id == z.id) then none
      else if sridOk z.geom then some { db with valuation_zones := z :: db.valuation_zones }
      else none
  | .updateZone z =>
      if sridOk z.geom then
        some { db with valuation_zones := db.valuation_zones.map (fun t => if t.id == z.id then z else t) }
      else none
  | .deleteZone i =>
      some { db with valuation_zones := db.valuation_zones.filter (fun z => z.id != i) }

/-- The empty store, as created by `schema.sql`. -/
def initDb : Database :=
  { parcele := [], stavbe := [], lastniki := [], valuation_zones := [] }

/-- Store states reachable from the empty store by accepted statements. -/
inductive Reachable : Database → Prop where
  | init : Reachable initDb
  | step (db db' : Database) (op : DbOp) :
      Reachable db → applyOp db op = some db' → Reachable db'

/-- Two parcel rows differ on the (parcela_stevilka, ko_sifra) pair. -/
def PDiff (p q : ParcelRow) : Prop :=
  ¬(p.parcela_stevilka = q.parcela_stevilka ∧ p.ko_sifra = q.ko_sifra)

/-- No two rows of `parcele` share the (parcela_stevilka, ko_sifra) pair. -/
def ParcelPairsUnique (db : Database) : Prop :=
  db.parcele.Pairwise PDiff

/-- Primary keys of `parcele` are distinct. -/
def ParcelIdsNodup (db : Database) : Prop :=
  (db.parcele.map (fun p => p.id)).Nodup

/-- Every building references an existing parcel. -/
def StavbeFk (db : Database) : Prop :=
  ∀ s ∈ db.stavbe, ∃ p ∈ db.parcele, p.id = s.parcela_id

/-- Every owner row references an existing parcel. -/
def LastnikiFk (db : Database) : Prop :=
  ∀ o ∈ db.lastniki, ∃ p ∈ db.parcele, p.id = o.parcela_id

/-- Every stored boundary polygon carries SRID 3794. -/
def GeomSrid (db : Database) : Prop :=
  (∀ p ∈ db.parcele, ∀ g, p.geom = some g → g.srid = 3794) ∧
  (∀ z ∈ db.valuation_zones, ∀ g, z.geom = some g → g.srid = 3794)

/-- The conjunction of the schema invariants. -/
def DbInv (db : Database) : Prop :=
  ParcelPairsUnique db ∧ ParcelIdsNodup db ∧ StavbeFk db ∧ LastnikiFk db ∧ GeomSrid db

/-- A passing SRID check pins any stored geometry to SRID 3794. -/
lemma sridOk_true {g : Option GeomValue} (h : sridOk g = true) :
    ∀ geo, g = some geo → geo.srid = 3794 := by
  intro geo hg
  subst hg
  simpa [sridOk] using h

/-- A failed clash check yields pair-difference. -/
lemma pairClash_false {p q : ParcelRow} (h : pairClash p q = false) : PDiff p q := by
  rintro ⟨h1, h2⟩
  simp [pairClash, h1, h2] at h

/-- A failed clash check yields pair-difference, arguments reversed. -/
lemma pairClash_false_symm {p q : ParcelRow} (h : pairClash p q = false) : PDiff q p :=
  fun hpq => pairClash_false h ⟨hpq.1.symm, hpq.2.symm⟩

/-- The row substituted by an UPDATE keeps the row's primary key. -/
lemma update_row_id (r p : ParcelRow) : (if p.id == r.id then r else p).id = p.id := by
  by_cases h : p.id = r.id <;> simp [h]

/-- An UPDATE keyed by primary key does not change the key column. -/
lemma update_ids (l : List ParcelRow) (r : ParcelRow) :
    ((l.map fun p => if p.id == r.id then r else p).map fun p => p.id) =
      l.map fun p => p.id := by
  rw [List.map_map]
  exact List.map_congr_left fun p _ => update_row_id r p

/-- Pair-uniqueness is preserved by an UPDATE whose new values clash with no
row other than the updated one. -/
lemma pairwise_update (l : List ParcelRow) (r : ParcelRow)
    (hne : ∀ p ∈ l, p.id ≠ r.id → pairClash p r = false)
    (hl : l.Pairwise PDiff)
    (hid : (l.map fun p => p.id).Nodup) :
    (l.map fun p => if p.id == r.id then r else p).Pairwise PDiff := by
  induction l with
  | nil => simp
  | cons a l ih =>
    rw [List.pairwise_cons] at hl
    simp only [List.map_cons, List.nodup_cons] at hid
    rw [List.map_cons, List.pairwise_cons]
    by_cases ha : a.id = r.id
    · have htl : (l.map fun p => if p.id == r.id then r else p) = l := by
        refine (List.map_congr_left ?_).trans l.map_id
        intro p hp
        have hpid : p.id ≠ r.id := by
          intro hc
          exact hid.1 (List.mem_map.mpr ⟨p, hp, by rw [hc, ha]⟩)
        simp [hpid]
      refine ⟨?_, ?_⟩
      · intro q hq
        rw [htl] at hq
        have hqid : q.id ≠ r.id := by
          intro hc
          exact hid.1 (List.mem_map.mpr ⟨q, hq, by rw [hc, ha]⟩)
        have hcl := hne q (List.mem_cons_of_mem a hq) hqid
        simp only [ha, beq_self_eq_true, if_true]
        exact pairClash_false_symm hcl
      · rw [htl]
        exact hl.2
    · have hhead : (if a.id == r.id then r else a) = a := if_neg (by simpa using ha)
      rw [hhead]
      refine ⟨?_, ?_⟩
      · intro q hq
        obtain ⟨y, hy, rfl⟩ := List.mem_map.mp hq
        by_cases hz : y.id = r.id
        · have hcl := hne a (List.mem_cons_self a l) ha
          rw [if_pos (by simpa using hz)]
          exact pairClash_false hcl
        · rw [if_neg (by simpa using hz)]
          exact hl.1 y hy
      · exact ih (fun p hp hne2 => hne p (List.mem_cons_of_mem a hp) hne2) hl.2 hid.2

/-- Every accepted statement preserves the schema invariants. -/
lemma applyOp_inv {db db' : Database} {op : DbOp}
    (hinv : DbInv db) (h : applyOp db op = some db') : DbInv db' := by
  unfold DbInv GeomSrid at hinv ⊢
  obtain ⟨hpair, hids, hsfk, hlfk, hgp, hgz⟩ := hinv
  cases op with
  | insertParcel r =>
    simp only [applyOp] at h
    split_ifs at h with h1 h2 h3
    simp only [Option.some.injEq] at h
    subst h
    simp only [List.any_eq_true, not_exists, not_and, Bool.not_eq_true] at h1 h2
    refine ⟨?_, ?_, ?_, ?_, ?_, ?_⟩
    · exact List.pairwise_cons.mpr
        ⟨fun q hq => pairClash_false_symm (h2 q hq), hpair⟩
    · refine List.nodup_cons.mpr ⟨?_, hids⟩
      intro hc
      obtain ⟨p, hp, hpe⟩ := List.mem_map.mp hc
      have := h1 p hp
      simp [hpe] at this
    · intro s hs
      obtain ⟨p, hp, hpe⟩ := hsfk s hs
      exact ⟨p, List.mem_cons_of_mem r hp, hpe⟩
    · intro o ho
      obtain ⟨p, hp, hpe⟩ := hlfk o ho
      exact ⟨p, List.mem_cons_of_mem r hp, hpe⟩
    · intro p hp g hg
      rcases List.mem_cons.mp hp with hpr | hpl
      · exact sridOk_true h3 g (hpr ▸ hg)
      · exact hgp p hpl g hg
    · exact hgz
  | updateParcel r =>
    simp only [applyOp] at h
    split_ifs at h with h1 h2
    simp only [Option.some.injEq] at h
    subst h
    simp only [List.any_eq_true, not_exists, not_and, Bool.not_eq_true,
      Bool.and_eq_false_iff, bne_eq_false_iff_eq] at h1
    have hne : ∀ p ∈ db.parcele, p.id ≠ r.id → pairClash p r = false := by
      intro p hp hpid
      rcases h1 p hp with hc | hc
      · exact absurd hc hpid
      · exact hc
    refine ⟨?_, ?_, ?_, ?_, ?_, ?_⟩
    · exact pairwise_update db.parcele r hne hpair hids
    · show ((db.parcele.map fun p => if p.id == r.id then r else p).map fun p => p.id).Nodup
      rw [update_ids]
      exact hids
    · intro s hs
      obtain ⟨p, hp, hpe⟩ := hsfk s hs
      refine ⟨if p.id == r.id then r else p, List.mem_map.mpr ⟨p, hp, rfl⟩, ?_⟩
      rw [update_row_id]
      exact hpe
    · intro o ho
      obtain ⟨p, hp, hpe⟩ := hlfk o ho
      refine ⟨if p.id == r.id then r else p, List.mem_map.mpr ⟨p, hp, rfl⟩, ?_⟩
      rw [update_row_id]
      exact hpe
    · intro p hp g hg
      obtain ⟨y, hy, rfl⟩ := List.mem_map.mp hp
      by_cases hz : y.id = r.id
      · rw [if_pos (by simpa using hz)] at hg
        exact sridOk_true h2 g hg
      · rw [if_neg (by simpa using hz)] at hg
        exact hgp y hy g hg
    · exact hgz
  | deleteParcel i =>
    simp only [applyOp, Option.some.injEq] at h
    subst h
    refine ⟨?_, ?_, ?_, ?_, ?_, ?_⟩
    · exact hpair.sublist (List.filter_sublist _)
    · exact hids.sublist ((List.filter_sublist _).map _)
    · intro s hs
      have hs2 := List.mem_filter.mp hs
      obtain ⟨p, hp, hpe⟩ := hsfk s hs2.1
      refine ⟨p, List.mem_filter.mpr ⟨hp, ?_⟩, hpe⟩
      have : s.parcela_id ≠ i := by simpa using hs2.2
      simpa [hpe] using this
    · intro o ho
      have ho2 := List.mem_filter.mp ho
      obtain ⟨p, hp, hpe⟩ := hlfk o ho2.1
      refine ⟨p, List.mem_filter.mpr ⟨hp, ?_⟩, hpe⟩
      have : o.parcela_id ≠ i := by simpa using ho2.2
      simpa [hpe] using this
    · intro p hp g hg
      exact hgp p (List.mem_filter.mp hp).1 g hg
    · exact hgz
  | insertStavba s =>
    simp only [applyOp] at h
    split_ifs at h with h1 h2
    simp only [Option.some.injEq] at h
    subst h
    refine ⟨hpair, hids, ?_, hlfk, hgp, hgz⟩
    intro t ht
    rcases List.mem_cons.mp ht with hts | htl
    · subst hts
      simp only [List.any_eq_true, beq_iff_eq] at h2
      exact h2
    · exact hsfk t htl
  | updateStavba s =>
    simp only [applyOp] at h
    split_ifs at h with h1
    simp only [Option.some.injEq] at h
    subst h
    refine ⟨hpair, hids, ?_, hlfk, hgp, hgz⟩
    intro t ht
    obtain ⟨y, hy, rfl⟩ := List.mem_map.mp ht
    by_cases hz : y.id = s.id
    · rw [if_pos (by simpa using hz)]
      simp only [List.any_eq_true, beq_iff_eq] at h1
      exact h1
    · rw [if_neg (by simpa using hz)]
      exact hsfk y hy
  | deleteStavba i =>
    simp only [applyOp, Option.some.injEq] at h
    subst h
    refine ⟨hpair, hids, ?_, hlfk, hgp, hgz⟩
    intro t ht
    exact hsfk t (List.mem_filter.mp ht).1
  | insertLastnik o =>
    simp only [applyOp] at h
    split_ifs at h with h1 h2
    simp only [Option.some.injEq] at h
    subst h
    refine ⟨hpair, hids, hsfk, ?_, hgp, hgz⟩
    intro t ht
    rcases List.mem_cons.mp ht with hts | htl
    · subst hts
      simp only [List.any_eq_true, beq_iff_eq] at h2
      exact h2
    · exact hlfk t htl
  | updateLastnik o =>
    simp only [applyOp] at h
    split_ifs at h with h1
    simp only [Option.some.injEq] at h
    subst h
    refine ⟨hpair, hids, hsfk, ?_, hgp, hgz⟩
    intro t ht
    obtain ⟨y, hy, rfl⟩ := List.mem_map.mp ht
    by_cases hz : y.id = o.id
    · rw [if_pos (by simpa using hz)]
      simp only [List.any_eq_true, beq_iff_eq] at h1
      exact h1
    · rw [if_neg (by simpa using hz)]
      exact hlfk y hy
  | deleteLastnik i =>
    simp only [applyOp, Option.some.injEq] at h
    subst h
    refine ⟨hpair, hids, hsfk, ?_, hgp, hgz⟩
    intro t ht
    exact hlfk t (List.mem_filter.mp ht).1
  | insertZone z =>
    simp only [applyOp] at h
    split_ifs at h with h1 h2
    simp only [Option.some.injEq] at h
    subst h
    refine ⟨hpair, hids, hsfk, hlfk, hgp, ?_⟩
    intro t ht g hg
    rcases List.mem_cons.mp ht with hts | htl
    · exact sridOk_true h2 g (hts ▸ hg)
    · exact hgz t htl g hg
  | updateZone z =>
    simp only [applyOp] at h
    split_ifs at h with h1
    simp only [Option.some.injEq] at h
    subst h
    refine ⟨hpair, hids, hsfk, hlfk, hgp, ?_⟩
    intro t ht g hg
    obtain ⟨y, hy, rfl⟩ := List.mem_map.mp ht
    by_cases hz : y.id = z.id
    · rw [if_pos (by simpa using hz)] at hg
      exact sridOk_true h1 g hg
    · rw [if_neg (by simpa using hz)] at hg
      exact hgz y hy g hg
  | deleteZone i =>
    simp only [applyOp, Option.some.injEq] at h
    subst h
    refine ⟨hpair, hids, hsfk, hlfk, hgp, ?_⟩
    intro t ht g hg
    exact hgz t (List.mem_filter.mp ht).1 g hg

/-- The schema invariants hold in every reachable store state. -/
lemma reachable_inv {db : Database} (h : Reachable db) : DbInv db := by
  induction h with
  | init =>
    simp [DbInv, GeomSrid, initDb, ParcelPairsUnique, ParcelIdsNodup, StavbeFk, LastnikiFk]
  | step db db' op _ happ ih => exact applyOp_inv ih happ

/-!
## The matching pipeline

The backend matching engine (`backend/property_detective`: matcher.py,
scoring.py, models.py) is not part of the provided sources; only the schema
it queries and the client consuming its responses are.  The pipeline below
is therefore modelled from the spec (sections 4.1, 4.2, 4.4 and 6), over the
store rows defined above, and produces the response shape declared by the
frontend `MatchResult` interface (src/lib/api-client.ts lines 15-38).
-/

/-- Insert into a list sorted by `le` (spec-modelled sorting helper). -/
def insertSorted {α : Type} (le : α → α → Bool) (a : α) : List α → List α
  | [] => [a]
  | b :: l => if le a b then a :: b :: l else b :: insertSorted le a l

/-- Insertion sort by `le` (spec-modelled sorting helper). -/
def sortBy {α : Type} (le : α → α → Bool) : List α → List α
  | [] => []
  | a :: l => insertSorted le a (sortBy le l)

lemma mem_insertSorted {α : Type} (le : α → α → Bool) (a x : α) (l : List α) :
    x ∈ insertSorted le a l ↔ x = a ∨ x ∈ l := by
  induction l with
  | nil => simp [insertSorted]
  | cons b l ih =>
    by_cases h : le a b = true
    · simp [insertSorted, h]
    · simp only [insertSorted, if_neg h, List.mem_cons, ih]
      tauto

lemma mem_sortBy {α : Type} (le : α → α → Bool) (x : α) (l : List α) :
    x ∈ sortBy le l ↔ x ∈ l := by
  induction l with
  | nil => simp [sortBy]
  | cons a l ih => simp [sortBy, mem_insertSorted, ih]

lemma length_insertSorted {α : Type} (le : α → α → Bool) (a : α) (l : List α) :
    (insertSorted le a l).length = l.length + 1 := by
  induction l with
  | nil => simp [insertSorted]
  | cons b l ih =>
    by_cases h : le a b = true
    · simp [insertSorted, h]
    · simp [insertSorted, h, ih]

lemma length_sortBy {α : Type} (le : α → α → Bool) (l : List α) :
    (sortBy le l).length = l.length := by
  induction l with
  | nil => rfl
  | cons a l ih => simp [sortBy, length_insertSorted, ih]

/-- Modelled from the spec: the `ToleranceConfig` component (spec sections 2
and 6) of the missing backend engine — externally supplied tolerances,
per-attribute weights and thresholds. -/
structure ToleranceConfig where
  area_tolerance : ℚ
  building_area_tolerance : ℚ
  year_tolerance : ℚ
  weight_area : ℚ
  weight_year : ℚ
  weight_building_area : ℚ
  weight_settlement : ℚ
  weight_street : ℚ
  min_similarity : ℚ
  min_confidence : ℚ
  max_candidates : Nat
  max_results : Nat
deriving Repr

/-- Validity of an externally supplied configuration: positive tolerances, a
positive parcel-area weight and nonnegative remaining weights (spec sections
4.2 and 6). -/
def ToleranceConfig.Valid (c : ToleranceConfig) : Prop :=
  0 < c.area_tolerance ∧ 0 < c.building_area_tolerance ∧ 0 < c.year_tolerance ∧
  0 < c.weight_area ∧ 0 ≤ c.weight_year ∧ 0 ≤ c.weight_building_area ∧
  0 ≤ c.weight_settlement ∧ 0 ≤ c.weight_street

/-- Modelled from the spec: the `ListingQuery` input of the missing backend
engine (spec sections 3 and 6) — parcel area required, the rest optional. -/
structure ListingQuery where
  settlement : Option String
  parcel_area_m2 : ℚ
  construction_year : Option Int
  net_floor_area_m2 : Option ℚ
  property_type : Option String
  street_name : Option String

/-- Text normalization for exact-match comparison of names. -/
def normalizeName (s : String) : String :=
  s.trim.toLower

/-- Contiguous-sublist test on character lists. -/
def listIsInfixOf (nee : List Char) : List Char → Bool
  | [] => nee.isEmpty
  | b :: t => List.isPrefixOf nee (b :: t) || listIsInfixOf nee t

/-- Case-insensitive containment test used by the settlement prefilter. -/
def containsCI (hay nee : String) : Bool :=
  listIsInfixOf nee.toLower.data hay.toLower.data

/-- Modelled from the spec: the hard area prefilter of the missing
AttributeMatcher (spec section 4.1a) — parcel area within the configured
relative area tolerance of the query's area. -/
def withinAreaTolerance (c : ToleranceConfig) (qa : ℚ) (p : ParcelRow) : Bool :=
  decide (|p.povrsina - qa| ≤ qa * c.area_tolerance)

/-- Modelled from the spec: the fuzzy settlement prefilter of the missing
AttributeMatcher (spec section 4.1b) — case-insensitive containment or
similarity at least the minimum threshold, applied only when the query
carries a settlement.  `sim` is the swappable text-similarity function. -/
def settlementPasses (sim : String → String → ℚ) (c : ToleranceConfig)
    (q : ListingQuery) (p : ParcelRow) : Bool :=
  match q.settlement with
  | none => true
  | some s =>
      containsCI p.ko_ime s || containsCI s p.ko_ime ||
        decide (c.min_similarity ≤ sim s p.ko_ime)

/-- Whether the query supplies any building attribute. -/
def hasBuildingAttrs (q : ListingQuery) : Bool :=
  q.construction_year.isSome || q.net_floor_area_m2.isSome || q.street_name.isSome

/-- Modelled from the spec: combined attribute deviation of a building from
the query, used by the missing AttributeMatcher to pick the single best
building of a parcel (spec section 4.1). -/
def buildingDeviation (q : ListingQuery) (s : StavbaRow) : ℚ :=
  (match q.construction_year, s.leto_izgradnje with
   | some a, some b => |(a : ℚ) - (b : ℚ)|
   | _, _ => 0) +
  (match q.net_floor_area_m2, s.neto_tloris with
   | some a, some b => |a - b|
   | _, _ => 0)

/-- Modelled from the spec: building selection of the missing
AttributeMatcher — the building minimizing combined deviation when building
attributes were supplied, otherwise unspecified (spec sections 4.1 and 9). -/
def pickBuilding (q : ListingQuery) (bs : List StavbaRow) : Option StavbaRow :=
  if hasBuildingAttrs q then
    bs.foldl
      (fun acc s =>
        match acc with
        | none => some s
        | some t => if buildingDeviation q s < buildingDeviation q t then some s else some t)
      none
  else none

/-- Area closeness used to order candidates before the cap. -/
def areaDelta (qa : ℚ) (p : ParcelRow) : ℚ :=
  |p.povrsina - qa|

/-- Modelled from the spec: candidate generation of the missing
AttributeMatcher (spec section 4.1) — hard area filter, settlement
prefilter, ordering by area-closeness, cap to the maximum candidate count,
and per-parcel building selection. -/
def candidateList (sim : String → String → ℚ) (c : ToleranceConfig)
    (q : ListingQuery) (db : Database) : List (ParcelRow × Option StavbaRow) :=
  let filtered := db.parcele.filter
    (fun p => withinAreaTolerance c q.parcel_area_m2 p && settlementPasses sim c q p)
  let sorted := sortBy
    (fun p1 p2 => decide (areaDelta q.parcel_area_m2 p1 ≤ areaDelta q.parcel_area_m2 p2))
    filtered
  (sorted.take c.max_candidates).map
    (fun p => (p, pickBuilding q (db.stavbe.filter (fun s => s.parcela_id == p.id))))

/-- Modelled from the spec: the parcel-area scoring rule of the missing
ScoringEngine — relative decay with hard zero beyond the tolerance (spec
section 4.2). -/
def areaScore (w t qa pa : ℚ) : ℚ :=
  w * max 0 (1 - |qa - pa| / (qa * t))

/-- Modelled from the spec: the construction-year scoring rule of the
missing ScoringEngine — full weight within the tolerance, then soft linear
decay (spec section 4.2). -/
def yearScore (w t d : ℚ) : ℚ :=
  if |d| ≤ t then w else w * max 0 (1 - (|d| - t) / t)

/-- Modelled from the spec: the text scoring rule of the missing
ScoringEngine — full weight on exact normalized match, otherwise weight
times similarity, floored to zero below the minimum similarity (spec
section 4.2). -/
def textScore (w minSim : ℚ) (sim : String → String → ℚ) (a b : String) : ℚ :=
  if normalizeName a = normalizeName b then w
  else if minSim ≤ sim a b then w * sim a b else 0

/-- An attribute's contribution to the comparison list: one entry when the
attribute is comparable (present on both sides), none otherwise. -/
def pairIf (name : String) (w : ℚ) : Option ℚ → List (String × ℚ × ℚ)
  | some sc => [(name, w, sc)]
  | none => []

/-- The construction-year comparison: scored only when the query and the
joined building both carry a year. -/
def yearComparison (c : ToleranceConfig) (q : ListingQuery) (b : Option StavbaRow) :
    Option ℚ :=
  match q.construction_year, b.bind (fun s => s.leto_izgradnje) with
  | some y, some yb =>
      some (yearScore c.weight_year c.year_tolerance ((y : ℚ) - (yb : ℚ)))
  | _, _ => none

/-- The net-floor-area comparison: scored only when present on both sides. -/
def nfaComparison (c : ToleranceConfig) (q : ListingQuery) (b : Option StavbaRow) :
    Option ℚ :=
  match q.net_floor_area_m2, b.bind (fun s => s.neto_tloris) with
  | some a, some ab =>
      some (areaScore c.weight_building_area c.building_area_tolerance a ab)
  | _, _ => none

/-- The settlement comparison: scored only when the query carries a
settlement (the parcel always carries its municipality name). -/
def settlementComparison (sim : String → String → ℚ) (c : ToleranceConfig)
    (q : ListingQuery) (p : ParcelRow) : Option ℚ :=
  q.settlement.map (fun s => textScore c.weight_settlement c.min_similarity sim s p.ko_ime)

/-- The street-name comparison: scored only when present on both sides. -/
def streetComparison (sim : String → String → ℚ) (c : ToleranceConfig)
    (q : ListingQuery) (b : Option StavbaRow) : Option ℚ :=
  match q.street_name, b.bind (fun s => s.naslov_ulica) with
  | some s, some sb =>
      some (textScore c.weight_street c.min_similarity sim s sb)
  | _, _ => none

/-- Modelled from the spec: the per-attribute comparison list of the missing
ScoringEngine.  Each entry is (attribute, weight, achieved score); an entry
exists exactly when the attribute is present on both query and candidate
(spec section 4.2), and the parcel-area entry is always present. -/
def attrPairs (sim : String → String → ℚ) (c : ToleranceConfig)
    (q : ListingQuery) (p : ParcelRow) (b : Option StavbaRow) :
    List (String × ℚ × ℚ) :=
  ("parcel_area", c.weight_area,
      areaScore c.weight_area c.area_tolerance q.parcel_area_m2 p.povrsina) ::
  (pairIf "construction_year" c.weight_year (yearComparison c q b) ++
   pairIf "net_floor_area" c.weight_building_area (nfaComparison c q b) ++
   pairIf "settlement" c.weight_settlement (settlementComparison sim c q p) ++
   pairIf "street_name" c.weight_street (streetComparison sim c q b))

/-- Sum of the weights of the attributes present on both sides. -/
def totalWeight (l : List (String × ℚ × ℚ)) : ℚ :=
  (l.map (fun x => x.2.1)).sum

/-- Sum of the achieved per-attribute scores. -/
def achievedScore (l : List (String × ℚ × ℚ)) : ℚ :=
  (l.map (fun x => x.2.2)).sum

/-- A scored match candidate, with the fields of one `matches` entry of the
frontend `MatchResult` interface. -/
structure MatchCandidate where
  parcela : ParcelRow
  stavba : Option StavbaRow
  score_breakdown : List (String × ℚ)
  score : ℚ
  confidence : ℚ

/-- Modelled from the spec: scoring one candidate by the missing
ScoringEngine — composite confidence is 100 times achieved score over the
sum of weights of attributes present on both sides (spec section 4.2). -/
def scoreCandidate (sim : String → String → ℚ) (c : ToleranceConfig)
    (q : ListingQuery) (pb : ParcelRow × Option StavbaRow) : MatchCandidate :=
  let pairs := attrPairs sim c q pb.1 pb.2
  { parcela := pb.1
    stavba := pb.2
    score_breakdown := pairs.map (fun x => (x.1, x.2.2))
    score := achievedScore pairs
    confidence := 100 * achievedScore pairs / totalWeight pairs }

/-- The response delivered to the caller, with the fields of the frontend
`MatchResult` interface (src/lib/api-client.ts lines 15-38): success flag,
message, match list, the geometry collection of the returned parcel
boundaries, and the integer count. -/
structure MatchResult where
  success : Bool
  message : String
  matchList : List MatchCandidate
  geojson : List GeomValue
  count : Int

/-- Candidate ordering of the ResultAssembler: confidence descending, ties
broken by ascending parcel id (spec section 4.2). -/
def rankLe (a b : MatchCandidate) : Bool :=
  decide (b.confidence < a.confidence) ||
    (decide (a.confidence = b.confidence) && decide (a.parcela.id ≤ b.parcela.id))

/-- Modelled from the spec: the missing ResultAssembler (spec section 4.4) —
discard candidates below the minimum confidence, rank, truncate to the
configured maximum, and attach the geometry collection and the count. -/
def assembleResult (c : ToleranceConfig) (cands : List MatchCandidate) : MatchResult :=
  let kept := cands.filter (fun m => decide (c.min_confidence ≤ m.confidence))
  let final := (sortBy rankLe kept).take c.max_results
  { success := !final.isEmpty
    message := if final.isEmpty then "No matching parcels found" else "Matches found"
    matchList := final
    geojson := final.filterMap (fun m => m.parcela.geom)
    count := final.length }

/-- Modelled from the spec: the missing end-to-end listing-match path
(AttributeMatcher, then ScoringEngine, then ResultAssembler; spec section
2). -/
def findProbableParcelsModel (sim : String → String → ℚ) (c : ToleranceConfig)
    (db : Database) (q : ListingQuery) : MatchResult :=
  assembleResult c ((candidateList sim c q db).map (scoreCandidate sim c q))

/-!
## Bounds on the scoring rules
-/

lemma areaScore_nonneg {w t qa pa : ℚ} (hw : 0 ≤ w) : 0 ≤ areaScore w t qa pa :=
  mul_nonneg hw (le_max_left 0 _)

lemma areaScore_le_weight {w t qa pa : ℚ} (hw : 0 ≤ w) (ht : 0 < t) (hqa : 0 < qa) :
    areaScore w t qa pa ≤ w := by
  have h1 : 0 ≤ |qa - pa| / (qa * t) := div_nonneg (abs_nonneg _) (mul_pos hqa ht).le
  have h2 : max 0 (1 - |qa - pa| / (qa * t)) ≤ 1 := max_le (by norm_num) (by linarith)
  calc areaScore w t qa pa ≤ w * 1 := mul_le_mul_of_nonneg_left h2 hw
    _ = w := mul_one w

lemma yearScore_nonneg {w t d : ℚ} (hw : 0 ≤ w) : 0 ≤ yearScore w t d := by
  unfold yearScore
  split
  · exact hw
  · exact mul_nonneg hw (le_max_left 0 _)

lemma yearScore_le_weight {w t d : ℚ} (hw : 0 ≤ w) (ht : 0 < t) : yearScore w t d ≤ w := by
  unfold yearScore
  split
  · exact le_rfl
  · rename_i hd
    push_neg at hd
    have h1 : 0 ≤ (|d| - t) / t := div_nonneg (by linarith) ht.le
    have h2 : max 0 (1 - (|d| - t) / t) ≤ 1 := max_le (by norm_num) (by linarith)
    calc w * max 0 (1 - (|d| - t) / t) ≤ w * 1 := mul_le_mul_of_nonneg_left h2 hw
      _ = w := mul_one w

lemma textScore_nonneg {w minSim : ℚ} {sim : String → String → ℚ} {a b : String}
    (hw : 0 ≤ w) (hsim : 0 ≤ sim a b) : 0 ≤ textScore w minSim sim a b := by
  unfold textScore
  split
  · exact hw
  · split
    · exact mul_nonneg hw hsim
    · exact le_rfl

lemma textScore_le_weight {w minSim : ℚ} {sim : String → String → ℚ} {a b : String}
    (hw : 0 ≤ w) (hsim1 : sim a b ≤ 1) : textScore w minSim sim a b ≤ w := by
  unfold textScore
  split
  · exact le_rfl
  · split
    · calc w * sim a b ≤ w * 1 := mul_le_mul_of_nonneg_left hsim1 hw
        _ = w := mul_one w
    · exact hw

lemma mem_pairIf {x : String × ℚ × ℚ} {name : String} {w : ℚ} {o : Option ℚ}
    (h : x ∈ pairIf name w o) : x.2.1 = w ∧ o = some x.2.2 := by
  cases o with
  | none => simp [pairIf] at h
  | some sc =>
    simp only [pairIf, List.mem_singleton] at h
    subst h
    exact ⟨rfl, rfl⟩

lemma yearComparison_bounds {c : ToleranceConfig} {q : ListingQuery}
    {b : Option StavbaRow} (hw : 0 ≤ c.weight_year) (ht : 0 < c.year_tolerance) :
    ∀ sc, yearComparison c q b = some sc → 0 ≤ sc ∧ sc ≤ c.weight_year := by
  intro sc h
  unfold yearComparison at h
  rcases hq : q.construction_year with _ | y <;>
    rcases hb : b.bind (fun s => s.leto_izgradnje) with _ | yb <;>
      rw [hq, hb] at h <;> simp at h
  subst h
  exact ⟨yearScore_nonneg hw, yearScore_le_weight hw ht⟩

lemma nfaComparison_bounds {c : ToleranceConfig} {q : ListingQuery}
    {b : Option StavbaRow} (hw : 0 ≤ c.weight_building_area)
    (ht : 0 < c.building_area_tolerance)
    (hpos : ∀ x, q.net_floor_area_m2 = some x → 0 < x) :
    ∀ sc, nfaComparison c q b = some sc → 0 ≤ sc ∧ sc ≤ c.weight_building_area := by
  intro sc h
  unfold nfaComparison at h
  rcases hq : q.net_floor_area_m2 with _ | a <;>
    rcases hb : b.bind (fun s => s.neto_tloris) with _ | ab <;>
      rw [hq, hb] at h <;> simp at h
  subst h
  exact ⟨areaScore_nonneg hw, areaScore_le_weight hw ht (hpos a hq)⟩

lemma settlementComparison_bounds {sim : String → String → ℚ} {c : ToleranceConfig}
    {q : ListingQuery} {p : ParcelRow} (hw : 0 ≤ c.weight_settlement)
    (hsim : ∀ a b, 0 ≤ sim a b ∧ sim a b ≤ 1) :
    ∀ sc, settlementComparison sim c q p = some sc →
      0 ≤ sc ∧ sc ≤ c.weight_settlement := by
  intro sc h
  unfold settlementComparison at h
  rcases hq : q.settlement with _ | s <;> rw [hq] at h <;> simp at h
  subst h
  exact ⟨textScore_nonneg hw (hsim s p.ko_ime).1, textScore_le_weight hw (hsim s p.ko_ime).2⟩

lemma streetComparison_bounds {sim : String → String → ℚ} {c : ToleranceConfig}
    {q : ListingQuery} {b : Option StavbaRow} (hw : 0 ≤ c.weight_street)
    (hsim : ∀ a b, 0 ≤ sim a b ∧ sim a b ≤ 1) :
    ∀ sc, streetComparison sim c q b = some sc → 0 ≤ sc ∧ sc ≤ c.weight_street := by
  intro sc h
  unfold streetComparison at h
  rcases hq : q.street_name with _ | s <;>
    rcases hb : b.bind (fun t => t.naslov_ulica) with _ | sb <;>
      rw [hq, hb] at h <;> simp at h
  subst h
  exact ⟨textScore_nonneg hw (hsim s sb).1, textScore_le_weight hw (hsim s sb).2⟩

/-- Every comparison entry scores between zero and its weight. -/
lemma attrPairs_score_bounds {sim : String → String → ℚ} {c : ToleranceConfig}
    {q : ListingQuery} {p : ParcelRow} {b : Option StavbaRow}
    (hc : c.Valid) (hsim : ∀ a b, 0 ≤ sim a b ∧ sim a b ≤ 1)
    (hqa : 0 < q.parcel_area_m2)
    (hnfa : ∀ x, q.net_floor_area_m2 = some x → 0 < x) :
    ∀ x ∈ attrPairs sim c q p b, 0 ≤ x.2.2 ∧ x.2.2 ≤ x.2.1 := by
  obtain ⟨hta, htb, hty, hwa, hwy, hwb, hws, hwt⟩ := hc
  intro x hx
  rw [attrPairs, List.mem_cons] at hx
  rcases hx with hx | hx
  · subst hx
    exact ⟨areaScore_nonneg hwa.le, areaScore_le_weight hwa.le hta hqa⟩
  · simp only [List.mem_append] at hx
    rcases hx with ((hx | hx) | hx) | hx
    · obtain ⟨hweq, hsc⟩ := mem_pairIf hx
      have := yearComparison_bounds hwy hty x.2.2 hsc
      rw [hweq]
      exact this
    · obtain ⟨hweq, hsc⟩ := mem_pairIf hx
      have := nfaComparison_bounds hwb htb hnfa x.2.2 hsc
      rw [hweq]
      exact this
    · obtain ⟨hweq, hsc⟩ := mem_pairIf hx
      have := settlementComparison_bounds hws hsim x.2.2 hsc
      rw [hweq]
      exact this
    · obtain ⟨hweq, hsc⟩ := mem_pairIf hx
      have := streetComparison_bounds hwt hsim x.2.2 hsc
      rw [hweq]
      exact this

/-- Every comparison entry carries a nonnegative weight. -/
lemma attrPairs_weight_nonneg {sim : String → String → ℚ} {c : ToleranceConfig}
    {q : ListingQuery} {p : ParcelRow} {b : Option StavbaRow} (hc : c.Valid) :
    ∀ x ∈ attrPairs sim c q p b, 0 ≤ x.2.1 := by
  obtain ⟨hta, htb, hty, hwa, hwy, hwb, hws, hwt⟩ := hc
  intro x hx
  rw [attrPairs, List.mem_cons] at hx
  rcases hx with hx | hx
  · subst hx
    exact hwa.le
  · simp only [List.mem_append] at hx
    rcases hx with ((hx | hx) | hx) | hx <;> rw [(mem_pairIf hx).1]
    · exact hwy
    · exact hwb
    · exact hws
    · exact hwt

/-- The denominator is positive: the always-present parcel-area weight is
positive and the other weights are nonnegative. -/
lemma totalWeight_attrPairs_pos {sim : String → String → ℚ} {c : ToleranceConfig}
    {q : ListingQuery} {p : ParcelRow} {b : Option StavbaRow} (hc : c.Valid) :
    0 < totalWeight (attrPairs sim c q p b) := by
  have hrest : ∀ x ∈ attrPairs sim c q p b, 0 ≤ x.2.1 := attrPairs_weight_nonneg hc
  rw [attrPairs] at hrest ⊢
  rw [totalWeight, List.map_cons, List.sum_cons]
  have hsum : 0 ≤ ((pairIf "construction_year" c.weight_year (yearComparison c q b) ++
      pairIf "net_floor_area" c.weight_building_area (nfaComparison c q b) ++
      pairIf "settlement" c.weight_settlement (settlementComparison sim c q p) ++
      pairIf "street_name" c.weight_street (streetComparison sim c q b)).map
        (fun x => x.2.1)).sum := by
    refine List.sum_nonneg ?_
    intro y hy
    obtain ⟨x, hx, rfl⟩ := List.mem_map.mp hy
    exact hrest x (List.mem_cons_of_mem _ hx)
  have hwa := hc.2.2.2.1
  linarith

/-- Confidence of any scored candidate lies in [0, 100]. -/
lemma scoreCandidate_confidence_bounds {sim : String → String → ℚ}
    {c : ToleranceConfig} {q : ListingQuery} {pb : ParcelRow × Option StavbaRow}
    (hc : c.Valid) (hsim : ∀ a b, 0 ≤ sim a b ∧ sim a b ≤ 1)
    (hqa : 0 < q.parcel_area_m2)
    (hnfa : ∀ x, q.net_floor_area_m2 = some x → 0 < x) :
    0 ≤ (scoreCandidate sim c q pb).confidence ∧
      (scoreCandidate sim c q pb).confidence ≤ 100 := by
  have hbounds := attrPairs_score_bounds (p := pb.1) (b := pb.2) hc hsim hqa hnfa
  have hT : 0 < totalWeight (attrPairs sim c q pb.1 pb.2) :=
    totalWeight_attrPairs_pos hc
  have hA0 : 0 ≤ achievedScore (attrPairs sim c q pb.1 pb.2) := by
    refine List.sum_nonneg ?_
    intro y hy
    obtain ⟨x, hx, rfl⟩ := List.mem_map.mp hy
    exact (hbounds x hx).1
  have hAT : achievedScore (attrPairs sim c q pb.1 pb.2) ≤
      totalWeight (attrPairs sim c q pb.1 pb.2) := by
    refine List.sum_le_sum ?_
    intro x hx
    exact (hbounds x hx).2
  simp only [scoreCandidate]
  constructor
  · exact div_nonneg (by linarith) hT.le
  · rw [div_le_iff₀ hT]
    linarith

/-!
## Concrete fixtures used by the witnesses
-/

/-- A trivial swappable similarity function. -/
def simZero : String → String → ℚ := fun _ _ => 0

/-- A concrete valid configuration. -/
def cfgW : ToleranceConfig :=
  ⟨1/10, 1/10, 5, 3, 2, 2, 1, 1, 1/2, 60, 10, 5⟩

/-- A concrete stored parcel (spec end-to-end example 1). -/
def parcelW : ParcelRow :=
  ⟨1, "123/4", "2690", "Ljubljana", 542, some ⟨3794, []⟩⟩

/-- A concrete stored building on `parcelW`. -/
def stavbaW : StavbaRow :=
  ⟨1, 1, some "10", some 1974, some (927/5), some 2, some "Hisa",
    some "Glavna", some "7", some "Ljubljana", some "Ljubljana", some "1000"⟩

/-- A concrete owner row on `parcelW`. -/
def lastnikW : LastnikRow :=
  ⟨1, 1, some "Janez Novak", some "fizicna oseba", some "1/1", some "lastnistvo"⟩

/-- A store holding just `parcelW`. -/
def dbW : Database := ⟨[parcelW], [], [], []⟩

/-- A store holding `parcelW` and its building. -/
def dbW2 : Database := ⟨[parcelW], [stavbaW], [], []⟩

/-- A store holding `parcelW` and its owner row. -/
def dbW3 : Database := ⟨[parcelW], [], [lastnikW], []⟩

/-- A concrete query for the shape witness. -/
def qW : ListingQuery := ⟨some "Ljubljana", 542, none, some 185, none, none⟩

lemma reachable_dbW : Reachable dbW :=
  Reachable.step initDb dbW (DbOp.insertParcel parcelW) Reachable.init rfl

lemma reachable_dbW2 : Reachable dbW2 :=
  Reachable.step dbW dbW2 (DbOp.insertStavba stavbaW) reachable_dbW rfl

lemma reachable_dbW3 : Reachable dbW3 :=
  Reachable.step dbW dbW3 (DbOp.insertLastnik lastnikW) reachable_dbW rfl

lemma cfgW_valid : cfgW.Valid := by
  refine ⟨?_, ?_, ?_, ?_, ?_, ?_, ?_, ?_⟩ <;> norm_num [cfgW]

lemma simZero_bounds : ∀ a b, 0 ≤ simZero a b ∧ simZero a b ≤ 1 := by
  intro a b
  norm_num [simZero]

/-!
## Claims
-/

/-- C2: for every HTTP response received by `findProbableParcels`, the
function returns the parsed body if and only if the response is ok; on a
non-ok response it throws an error carrying the server's detail message
(with the client's fallback text when the detail is absent or falsy), so an
infrastructure failure is never returned as a success value. -/
theorem findProbableParcels_ok_iff (r : HttpResponse) :
    ((∃ v, findProbableParcels r = Except.ok v) ↔ r.ok = true) ∧
    (r.ok = true → findProbableParcels r = Except.ok r.body) ∧
    (r.ok = false →
      findProbableParcels r =
        Except.error (jsOr (r.body.get? "detail")
          (Json.str "Failed to find probable parcels"))) := by
  rcases hok : r.ok <;> simp [findProbableParcels, hok]

/-- C2 witness: a concrete non-ok response with a detail message makes
`findProbableParcels` throw exactly that message. -/
theorem findProbableParcels_ok_iff_witness :
    findProbableParcels ⟨false, Json.obj [("detail", Json.str "boom")]⟩ =
      Except.error (Json.str "boom") := by
  have h :=
    (findProbableParcels_ok_iff ⟨false, Json.obj [("detail", Json.str "boom")]⟩).2.2 rfl
  simpa [Json.get?, lookupField, jsOr, Json.truthy] using h

/-- C10: unlike `findProbableParcels`, `checkPermit` and `getParcelDetails`,
the client's `healthCheck` never inspects `response.ok`: for every response,
ok or not, it returns the parsed JSON body, while the other three throw on
every non-ok response. -/
theorem healthCheck_no_ok_check :
    (∀ r, healthCheck r = Except.ok r.body) ∧
    (∀ r, r.ok = false →
      (∃ e, findProbableParcels r = Except.error e) ∧
      (∃ e, checkPermit r = Except.error e) ∧
      (∃ e, getParcelDetails r = Except.error e)) := by
  refine ⟨fun r => rfl, ?_⟩
  intro r hr
  refine ⟨⟨jsOr (r.body.get? "detail") (Json.str "Failed to find probable parcels"), ?_⟩,
    ⟨jsOr (r.body.get? "detail") (Json.str "Failed to check permit"), ?_⟩,
    ⟨jsOr (r.body.get? "detail") (Json.str "Failed to get parcel details"), ?_⟩⟩ <;>
    simp [findProbableParcels, checkPermit, getParcelDetails, hr]

/-- C10 witness: a concrete failing response is returned as a value by
`healthCheck` but thrown by the other three methods. -/
theorem healthCheck_no_ok_check_witness :
    healthCheck ⟨false, Json.null⟩ = Except.ok Json.null ∧
    ((∃ e, findProbableParcels ⟨false, Json.null⟩ = Except.error e) ∧
      (∃ e, checkPermit ⟨false, Json.null⟩ = Except.error e) ∧
      (∃ e, getParcelDetails ⟨false, Json.null⟩ = Except.error e)) :=
  ⟨healthCheck_no_ok_check.1 ⟨false, Json.null⟩,
   healthCheck_no_ok_check.2 ⟨false, Json.null⟩ rfl⟩

/-- C4 counterexample: the claim says a query omitting settlement is
accepted, but an input without `settlement` does not conform to the
`ListingData` interface, and the search form refuses to submit with an
empty Settlement field. -/
theorem listingData_settlement_omitted_rejected :
    conformsToListingData ⟨none, some 542, none, none, none, none⟩ = false ∧
    formSubmittable "" "542" = false := by
  exact ⟨rfl, by decide⟩

/-- C4 amended: a ListingQuery requires settlement and parcel_area_m2;
construction_year, net_floor_area_m2, property_type and street_name are
optional, and a query omitting any or all of those four is accepted. -/
theorem listingData_required_fields (j : ListingDataFields)
    (hs : j.settlement.isSome = true) (ha : j.parcel_area_m2.isSome = true) :
    conformsToListingData j = true := by
  unfold conformsToListingData
  rw [hs, ha]
  rfl

/-- C4 witness: a concrete input carrying only the two required fields
conforms to `ListingData`. -/
theorem listingData_required_fields_witness :
    conformsToListingData ⟨some "Ljubljana", some 542, none, none, none, none⟩ = true :=
  listingData_required_fields ⟨some "Ljubljana", some 542, none, none, none, none⟩ rfl rfl

/-- C1: every matching response delivered to the caller has the
`MatchResult` shape: each match carries its parcel summary, optional
building summary, a confidence within 0..100, a raw score and a
per-attribute breakdown; the geometry collection consists of the returned
parcels' boundaries; and the count equals the number of matches, as an
integer. -/
theorem matchResult_shape (sim : String → String → ℚ) (c : ToleranceConfig)
    (db : Database) (q : ListingQuery)
    (hc : c.Valid) (hsim : ∀ a b, 0 ≤ sim a b ∧ sim a b ≤ 1)
    (hqa : 0 < q.parcel_area_m2)
    (hnfa : ∀ x, q.net_floor_area_m2 = some x → 0 < x) :
    (∀ m ∈ (findProbableParcelsModel sim c db q).matchList,
        0 ≤ m.confidence ∧ m.confidence ≤ 100) ∧
    (findProbableParcelsModel sim c db q).count =
      ((findProbableParcelsModel sim c db q).matchList.length : Int) ∧
    (findProbableParcelsModel sim c db q).geojson =
      (findProbableParcelsModel sim c db q).matchList.filterMap
        (fun m => m.parcela.geom) := by
  refine ⟨?_, rfl, rfl⟩
  intro m hm
  simp only [findProbableParcelsModel, assembleResult] at hm
  have hm2 := List.mem_of_mem_take hm
  rw [mem_sortBy] at hm2
  have hm3 := (List.mem_filter.mp hm2).1
  obtain ⟨pb, hpb, rfl⟩ := List.mem_map.mp hm3
  exact scoreCandidate_confidence_bounds hc hsim hqa hnfa

/-- C1 witness: the shape properties at a concrete configuration, store and
query. -/
theorem matchResult_shape_witness :
    (∀ m ∈ (findProbableParcelsModel simZero cfgW dbW qW).matchList,
        0 ≤ m.confidence ∧ m.confidence ≤ 100) ∧
    (findProbableParcelsModel simZero cfgW dbW qW).count =
      ((findProbableParcelsModel simZero cfgW dbW qW).matchList.length : Int) ∧
    (findProbableParcelsModel simZero cfgW dbW qW).geojson =
      (findProbableParcelsModel simZero cfgW dbW qW).matchList.filterMap
        (fun m => m.parcela.geom) :=
  matchResult_shape simZero cfgW dbW qW cfgW_valid simZero_bounds
    (by norm_num [qW])
    (by
      intro x hx
      simp only [qW] at hx
      injection hx with hx
      rw [← hx]
      norm_num)

/-- The confidence computed for an exact-area query with no other attribute
set is exactly 100. -/
lemma confidence_exact_area (sim : String → String → ℚ) (c : ToleranceConfig)
    (p : ParcelRow) (hw : c.weight_area ≠ 0) :
    (scoreCandidate sim c ⟨none, p.povrsina, none, none, none, none⟩ (p, none)).confidence
      = 100 := by
  have hpairs : attrPairs sim c ⟨none, p.povrsina, none, none, none, none⟩ p none =
      [("parcel_area", c.weight_area,
        areaScore c.weight_area c.area_tolerance p.povrsina p.povrsina)] := by
    simp [attrPairs, yearComparison, nfaComparison, settlementComparison,
      streetComparison, pairIf]
  have hscore : areaScore c.weight_area c.area_tolerance p.povrsina p.povrsina =
      c.weight_area := by
    unfold areaScore
    rw [sub_self, abs_zero, zero_div]
    norm_num
  simp only [scoreCandidate, hpairs, achievedScore, totalWeight, List.map_cons,
    List.map_nil, List.sum_cons, List.sum_nil, hscore]
  rw [add_zero, mul_div_assoc, div_self hw, mul_one]

/-- C3: for every query whose parcel_area_m2 is exactly a stored parcel's
area and which sets no other attribute, that parcel appears in the result
with confidence 100 (under a valid configuration whose caps are not
exceeded by the store). -/
theorem exact_area_gives_full_confidence (sim : String → String → ℚ)
    (c : ToleranceConfig) (db : Database) (p : ParcelRow)
    (hc : c.Valid) (hminc : c.min_confidence ≤ 100)
    (hp : p ∈ db.parcele) (hpos : 0 < p.povrsina)
    (hcand : db.parcele.length ≤ c.max_candidates)
    (hres : db.parcele.length ≤ c.max_results) :
    ∃ m ∈ (findProbableParcelsModel sim c db
        ⟨none, p.povrsina, none, none, none, none⟩).matchList,
      m.parcela = p ∧ m.confidence = 100 := by
  set q : ListingQuery := ⟨none, p.povrsina, none, none, none, none⟩ with hqdef
  have hconf := confidence_exact_area sim c p hc.2.2.2.1.ne'
  refine ⟨scoreCandidate sim c q (p, none), ?_, rfl, hconf⟩
  have hfilter_mem : p ∈ db.parcele.filter
      (fun x => withinAreaTolerance c q.parcel_area_m2 x && settlementPasses sim c q x) := by
    rw [List.mem_filter]
    refine ⟨hp, ?_⟩
    have h1 : withinAreaTolerance c q.parcel_area_m2 p = true := by
      unfold withinAreaTolerance
      rw [decide_eq_true_eq]
      rw [show q.parcel_area_m2 = p.povrsina from rfl, sub_self, abs_zero]
      exact mul_nonneg hpos.le hc.1.le
    have h2 : settlementPasses sim c q p = true := rfl
    rw [h1, h2]
    rfl
  have hcandmem : (p, (none : Option StavbaRow)) ∈ candidateList sim c q db := by
    simp only [candidateList]
    have htake : ((sortBy (fun p1 p2 =>
        decide (areaDelta q.parcel_area_m2 p1 ≤ areaDelta q.parcel_area_m2 p2))
          (db.parcele.filter (fun x => withinAreaTolerance c q.parcel_area_m2 x &&
            settlementPasses sim c q x))).take c.max_candidates) =
        sortBy (fun p1 p2 =>
          decide (areaDelta q.parcel_area_m2 p1 ≤ areaDelta q.parcel_area_m2 p2))
          (db.parcele.filter (fun x => withinAreaTolerance c q.parcel_area_m2 x &&
            settlementPasses sim c q x)) := by
      refine List.take_of_length_le ?_
      rw [length_sortBy]
      exact le_trans (List.length_filter_le _ _) hcand
    rw [htake]
    refine List.mem_map.mpr ⟨p, ?_, ?_⟩
    · rw [mem_sortBy]
      exact hfilter_mem
    · have hpick : pickBuilding q (db.stavbe.filter (fun s => s.parcela_id == p.id)) =
          none := rfl
      rw [hpick]
  have hscored : scoreCandidate sim c q (p, none) ∈
      (candidateList sim c q db).map (scoreCandidate sim c q) :=
    List.mem_map.mpr ⟨(p, none), hcandmem, rfl⟩
  have hkept : scoreCandidate sim c q (p, none) ∈
      ((candidateList sim c q db).map (scoreCandidate sim c q)).filter
        (fun m => decide (c.min_confidence ≤ m.confidence)) := by
    rw [List.mem_filter]
    refine ⟨hscored, ?_⟩
    rw [hconf]
    exact decide_eq_true hminc
  simp only [findProbableParcelsModel, assembleResult]
  have hlen : (sortBy rankLe
      (((candidateList sim c q db).map (scoreCandidate sim c q)).filter
        (fun m => decide (c.min_confidence ≤ m.confidence)))).length ≤ c.max_results := by
    rw [length_sortBy]
    refine le_trans (List.length_filter_le _ _) ?_
    rw [List.length_map]
    refine le_trans ?_ hres
    unfold candidateList
    rw [List.length_map]
    refine le_trans (List.length_take_le' _ _) ?_
    rw [length_sortBy]
    exact List.length_filter_le _ _
  rw [List.take_of_length_le hlen, mem_sortBy]
  exact hkept

/-- C3 witness: the exact-area query at the concrete store holding
`parcelW` returns that parcel with confidence 100. -/
theorem exact_area_gives_full_confidence_witness :
    ∃ m ∈ (findProbableParcelsModel simZero cfgW dbW
        ⟨none, parcelW.povrsina, none, none, none, none⟩).matchList,
      m.parcela = parcelW ∧ m.confidence = 100 :=
  exact_area_gives_full_confidence simZero cfgW dbW parcelW cfgW_valid
    (by norm_num [cfgW]) (by simp [dbW]) (by norm_num [parcelW])
    (by norm_num [dbW, cfgW]) (by norm_num [dbW, cfgW])

/-- C6: for every query whose parcel_area_m2 lies outside the configured
area tolerance of every stored parcel's area, the result has success false,
an empty match list, and count 0. -/
theorem outside_tolerance_empty_result (sim : String → String → ℚ)
    (c : ToleranceConfig) (db : Database) (q : ListingQuery)
    (h : ∀ p ∈ db.parcele,
      ¬(|p.povrsina - q.parcel_area_m2| ≤ q.parcel_area_m2 * c.area_tolerance)) :
    (findProbableParcelsModel sim c db q).success = false ∧
    (findProbableParcelsModel sim c db q).matchList = [] ∧
    (findProbableParcelsModel sim c db q).count = 0 := by
  have hfe : db.parcele.filter
      (fun p => withinAreaTolerance c q.parcel_area_m2 p && settlementPasses sim c q p)
        = [] := by
    refine List.filter_eq_nil_iff.mpr ?_
    intro p hp
    have hfalse : withinAreaTolerance c q.parcel_area_m2 p = false := by
      unfold withinAreaTolerance
      rw [decide_eq_false_iff_not]
      exact h p hp
    simp [hfalse]
  have hcl : candidateList sim c q db = [] := by
    simp [candidateList, hfe, sortBy]
  refine ⟨?_, ?_, ?_⟩ <;>
    simp [findProbableParcelsModel, assembleResult, hcl, sortBy]

/-- C6 witness: a query for 1000 m² against the store holding only the
542 m² parcel produces the empty unsuccessful result. -/
theorem outside_tolerance_empty_result_witness :
    (findProbableParcelsModel simZero cfgW dbW ⟨none, 1000, none, none, none, none⟩).success
        = false ∧
    (findProbableParcelsModel simZero cfgW dbW
        ⟨none, 1000, none, none, none, none⟩).matchList = [] ∧
    (findProbableParcelsModel simZero cfgW dbW ⟨none, 1000, none, none, none, none⟩).count
        = 0 :=
  outside_tolerance_empty_result simZero cfgW dbW ⟨none, 1000, none, none, none, none⟩
    (by
      intro p hp
      simp only [dbW, List.mem_singleton] at hp
      subst hp
      rw [not_le]
      show (1000 : ℚ) * cfgW.area_tolerance < |parcelW.povrsina - 1000|
      rw [show parcelW.povrsina - (1000 : ℚ) = -458 from by norm_num [parcelW]]
      rw [abs_neg]
      norm_num [cfgW])

/-- C5: in the parcel store no two rows ever share the same
(parcela_stevilka, ko_sifra) pair: the invariant holds in every reachable
store state, and every insert or update that would violate it is
rejected. -/
theorem unique_parcela_invariant :
    (∀ db, Reachable db → ParcelPairsUnique db) ∧
    (∀ db r, (∃ p ∈ db.parcele,
        p.parcela_stevilka = r.parcela_stevilka ∧ p.ko_sifra = r.ko_sifra) →
      applyOp db (DbOp.insertParcel r) = none) ∧
    (∀ db r, (∃ p ∈ db.parcele, p.id ≠ r.id ∧
        p.parcela_stevilka = r.parcela_stevilka ∧ p.ko_sifra = r.ko_sifra) →
      applyOp db (DbOp.updateParcel r) = none) := by
  refine ⟨?_, ?_, ?_⟩
  · intro db hdb
    have hinv := reachable_inv hdb
    unfold DbInv at hinv
    exact hinv.1
  · rintro db r ⟨p, hp, h1, h2⟩
    have hB : db.parcele.any (fun p => pairClash p r) = true :=
      List.any_eq_true.mpr ⟨p, hp, by simp [pairClash, h1, h2]⟩
    simp [applyOp, hB]
  · rintro db r ⟨p, hp, hid, h1, h2⟩
    have hB : db.parcele.any (fun p => p.id != r.id && pairClash p r) = true :=
      List.any_eq_true.mpr ⟨p, hp, by simp [pairClash, h1, h2, hid]⟩
    simp [applyOp, hB]

/-- C5 witness: the invariant at a concrete reachable store, and a concrete
clashing insert rejected. -/
theorem unique_parcela_invariant_witness :
    ParcelPairsUnique dbW ∧
    applyOp dbW (DbOp.insertParcel ⟨2, "123/4", "2690", "Druga", 100, none⟩) = none :=
  ⟨unique_parcela_invariant.1 dbW reachable_dbW,
   unique_parcela_invariant.2.1 dbW ⟨2, "123/4", "2690", "Druga", 100, none⟩
     ⟨parcelW, by simp [dbW], rfl, rfl⟩⟩

/-- Distinct primary keys make the parcel referenced by an id unique. -/
lemma nodup_ids_inj {l : List ParcelRow} (h : (l.map fun p => p.id).Nodup)
    {p₁ p₂ : ParcelRow} (h1 : p₁ ∈ l) (h2 : p₂ ∈ l) (he : p₁.id = p₂.id) : p₁ = p₂ := by
  induction l with
  | nil => cases h1
  | cons a l ih =>
    rw [List.map_cons, List.nodup_cons] at h
    rcases List.mem_cons.mp h1 with rfl | h1m <;> rcases List.mem_cons.mp h2 with rfl | h2m
    · rfl
    · exact absurd (List.mem_map.mpr ⟨p₂, h2m, he.symm⟩) h.1
    · exact absurd (List.mem_map.mpr ⟨p₁, h1m, he⟩) h.1
    · exact ih h.2 h1m h2m

/-- C7: in every reachable store state every building references exactly one
existing parcel, and deleting a parcel deletes every building owned by
it. -/
theorem stavbe_cascade_invariant :
    (∀ db, Reachable db → ∀ s ∈ db.stavbe,
      ∃! p, p ∈ db.parcele ∧ p.id = s.parcela_id) ∧
    (∀ db i db', applyOp db (DbOp.deleteParcel i) = some db' →
      ∀ s ∈ db'.stavbe, s.parcela_id ≠ i) := by
  constructor
  · intro db hdb s hs
    have hinv := reachable_inv hdb
    unfold DbInv at hinv
    obtain ⟨p, hp, hpe⟩ := hinv.2.2.1 s hs
    refine ⟨p, ⟨hp, hpe⟩, ?_⟩
    rintro p2 ⟨hp2, hpe2⟩
    exact nodup_ids_inj hinv.2.1 hp2 hp (hpe2.trans hpe.symm)
  · intro db i db' happ s hs
    simp only [applyOp, Option.some.injEq] at happ
    subst happ
    have := (List.mem_filter.mp hs).2
    simpa using this

/-- C7 witness: the unique owning parcel of the concrete building, and the
cascade on deleting its parcel. -/
theorem stavbe_cascade_invariant_witness :
    (∃! p, p ∈ dbW2.parcele ∧ p.id = stavbaW.parcela_id) ∧
    (∀ s ∈ (initDb : Database).stavbe, s.parcela_id ≠ 1) :=
  ⟨stavbe_cascade_invariant.1 dbW2 reachable_dbW2 stavbaW (by simp [dbW2]),
   stavbe_cascade_invariant.2 dbW2 1 initDb rfl⟩

/-- C8: every stored boundary polygon, of every parcel and of every
valuation zone, carries the fixed projected reference system EPSG:3794 in
every reachable store state. -/
theorem geom_srid_3794 (db : Database) (h : Reachable db) :
    (∀ p ∈ db.parcele, ∀ g, p.geom = some g → g.srid = 3794) ∧
    (∀ z ∈ db.valuation_zones, ∀ g, z.geom = some g → g.srid = 3794) := by
  have hinv := reachable_inv h
  unfold DbInv GeomSrid at hinv
  exact ⟨hinv.2.2.2.2.1, hinv.2.2.2.2.2⟩

/-- C8 witness: the SRID property at a concrete reachable store. -/
theorem geom_srid_3794_witness :
    (∀ p ∈ dbW.parcele, ∀ g, p.geom = some g → g.srid = 3794) ∧
    (∀ z ∈ dbW.valuation_zones, ∀ g, z.geom = some g → g.srid = 3794) :=
  geom_srid_3794 dbW reachable_dbW

/-- C9: deleting a parcel also cascade-deletes every owner row referencing
it, and in no reachable store state does an ownership record exist without
its parcel. -/
theorem lastniki_cascade_invariant :
    (∀ db, Reachable db → ∀ o ∈ db.lastniki, ∃ p ∈ db.parcele, p.id = o.parcela_id) ∧
    (∀ db i db', applyOp db (DbOp.deleteParcel i) = some db' →
      ∀ o ∈ db'.lastniki, o.parcela_id ≠ i) := by
  constructor
  · intro db hdb o ho
    have hinv := reachable_inv hdb
    unfold DbInv at hinv
    exact hinv.2.2.2.1 o ho
  · intro db i db' happ o ho
    simp only [applyOp, Option.some.injEq] at happ
    subst happ
    have := (List.mem_filter.mp ho).2
    simpa using this

/-- C9 witness: the existing parcel of the concrete owner row, and the
cascade on deleting its parcel. -/
theorem lastniki_cascade_invariant_witness :
    (∃ p ∈ dbW3.parcele, p.id = lastnikW.parcela_id) ∧
    (∀ o ∈ (initDb : Database).lastniki, o.parcela_id ≠ 1) :=
  ⟨lastniki_cascade_invariant.1 dbW3 reachable_dbW3 lastnikW (by simp [dbW3]),
   lastniki_cascade_invariant.2 dbW3 1 initDb rfl⟩

end Gnep
